import Mathlib

/-!
Shallow embedding of `crates/ra_hir_expand/src/lib.rs`: the file-identity and
position-mapping core (`HirFileId`, `MacroFile`, `MacroCallId`, `ExpansionInfo`,
`AstId`, `Source`).  External collaborators (the salsa database, the
`ra_syntax`/`text_unit` types, the `ast_id_map` node-index table) are modelled
as explicit parameters or opaque `Nat`-backed values, with their documented
semantics.
-/

namespace RaHirExpand

/-- Real file identity, from the external `ra_db` crate: `FileId(pub u32)`.
Modelled as a bare natural number (an opaque comparable handle). -/
abbrev FileId := Nat

/-- Crate identity, from the external `ra_db` crate: `CrateId(pub u32)`. -/
abbrev CrateId := Nat

/-- Text range from the external `text_unit` crate: a half-open interval
`[start, end)` of offsets.  The source field `end` is a Lean keyword, so it is
named `stop` here. -/
structure TextRange where
  start : Nat
  stop : Nat
  deriving DecidableEq

/-- `text_unit::TextRange::is_subrange`: `a.is_subrange(&b)` holds iff `a`
lies entirely within `b` (`b.start() <= a.start() && a.end() <= b.end()`). -/
def TextRange.is_subrange (a b : TextRange) : Bool :=
  decide (b.start ≤ a.start ∧ a.stop ≤ b.stop)

/-- `MacroCallId(salsa::InternId)`: an interned handle for a macro-call
location.  The intern id is an opaque small integer. -/
structure MacroCallId where
  intern_id : Nat
  deriving DecidableEq

/-- `enum MacroFileKind { Items, Expr }`: the shape tag of an expansion. -/
inductive MacroFileKind where
  | Items
  | Expr
  deriving DecidableEq

/-- `struct MacroFile { macro_call_id, macro_file_kind }`. -/
structure MacroFile where
  macro_call_id : MacroCallId
  macro_file_kind : MacroFileKind
  deriving DecidableEq

/-- `enum HirFileIdRepr { FileId(FileId), MacroFile(MacroFile) }`. -/
inductive HirFileIdRepr where
  | fileId (f : FileId)
  | macroFile (mf : MacroFile)
  deriving DecidableEq

/-- `pub struct HirFileId(HirFileIdRepr)`: the unified file identity. -/
structure HirFileId where
  repr0 : HirFileIdRepr
  deriving DecidableEq

/-- `impl From<FileId> for HirFileId`. -/
def HirFileId.from_file (f : FileId) : HirFileId :=
  ⟨HirFileIdRepr.fileId f⟩

/-- `impl From<MacroFile> for HirFileId`. -/
def HirFileId.from_macro_file (mf : MacroFile) : HirFileId :=
  ⟨HirFileIdRepr.macroFile mf⟩

/-- Modelled from the spec: `ast_id_map.rs` is declared (`pub mod ast_id_map`)
but not present under `src/`; per §4.4 a `FileAstId<N>` is "a per-file stable
node index" — an opaque small integer, modelled as `Nat`. -/
abbrev FileAstId := Nat

/-- `struct AstId<N> { file_id, file_ast_id }`: a stable node reference.  The
phantom node-type parameter `N` plays no role in the claims and is dropped. -/
structure AstId where
  file_id : HirFileId
  file_ast_id : FileAstId
  deriving DecidableEq

/-- `AstId::new`. -/
def AstId.new (file_id : HirFileId) (file_ast_id : FileAstId) : AstId :=
  { file_id := file_id, file_ast_id := file_ast_id }

/-- `struct MacroDefId { krate, ast_id }`: identity of a macro definition. -/
structure MacroDefId where
  krate : CrateId
  ast_id : AstId
  deriving DecidableEq

/-- `struct MacroCallLoc { def, ast_id }`: a macro-call location.  The source
field `def` (the definition) is a Lean keyword, so it is named `def_` here;
`ast_id` is the stable reference to the invocation site. -/
structure MacroCallLoc where
  def_ : MacroDefId
  ast_id : AstId
  deriving DecidableEq

/-- `struct ExpansionInfo { arg_map, def_map }`: the per-virtual-file range
correspondences, insertion-ordered lists of `(source range, dest range)`. -/
structure ExpansionInfo where
  arg_map : List (TextRange × TextRange)
  def_map : List (TextRange × TextRange)
  deriving DecidableEq

/-- Modelled from the spec: syntax nodes come from the external `ra_syntax`
crate (not under `src/`); treated as opaque values here. -/
abbrev SyntaxNode := Nat

/-- Modelled from the spec (§4.4): a node pointer from the `ast_id_map` table
"maps onto the live tree" — a function from the materialized root to the node. -/
abbrev AstPtr := SyntaxNode → SyntaxNode

/-- Modelled from the spec (§4.4): the per-file node-index table, mapping the
per-file stable index to a node pointer.  A missing index is the lookup-failure
(panic) branch, modelled as `none`. -/
abbrev AstIdMap := List AstPtr

/-- Table lookup: `ast_id_map.get(file_ast_id)` (panics on a missing index in
the code; modelled as `none`). -/
def AstIdMap.get (m : AstIdMap) (i : FileAstId) : Option AstPtr :=
  m[i]?

/-- The database collaborator (`db::AstDatabase`), §6 of the spec: the four
queries this core requires.  `lookup_intern_macro` resolves a handle to its
location; `macro_expansion_info` is `none` when the macro failed to expand;
`parse_or_expand` is `none` when the file identity cannot be materialized. -/
structure AstDatabase where
  lookup_intern_macro : MacroCallId → MacroCallLoc
  macro_expansion_info : MacroFile → Option ExpansionInfo
  parse_or_expand : HirFileId → Option SyntaxNode
  ast_id_map : HirFileId → AstIdMap

/-- `HirFileId::original_file`: real identities return themselves; virtual
identities resolve the macro-call handle to its location, take the file
identity of the call site (`loc.ast_id.file_id()`, not the definition site)
and recurse.  The Rust recursion has no structural decrease, so the embedding
takes an explicit fuel argument; `none` means the fuel ran out. -/
def HirFileId.original_file : HirFileId → AstDatabase → Nat → Option FileId
  | _, _, 0 => none
  | id, db, Nat.succ fuel =>
    match id.repr0 with
    | HirFileIdRepr.fileId f => some f
    | HirFileIdRepr.macroFile mf =>
      HirFileId.original_file
        ((AstDatabase.lookup_intern_macro db mf.macro_call_id).ast_id.file_id)
        db fuel

/-- The one-step call-site move of `original_file` / `parent_expansion`:
`loc.ast_id.file_id` for the interned location of a virtual file. -/
def call_site (db : AstDatabase) (mf : MacroFile) : HirFileId :=
  (AstDatabase.lookup_intern_macro db mf.macro_call_id).ast_id.file_id

/-- The §3 invariant, "recursion always terminates at a real file identity":
`RootsAt db id f k` says the call-site chain from `id` reaches the real file
`f` in exactly `k` steps. -/
inductive RootsAt (db : AstDatabase) : HirFileId → FileId → Nat → Prop where
  | real : ∀ f, RootsAt db (HirFileId.from_file f) f 0
  | step : ∀ mf f k, RootsAt db (call_site db mf) f k →
      RootsAt db (HirFileId.from_macro_file mf) f (k + 1)

/-- `HirFileId::parent_expansion`: one level of unwrapping.  Real identities
yield `none`; virtual identities pair `(arg_file, def_file)` — the call-site
file and the definition-site file of the interned location — with the cached
expansion info, or `none` when the database has none. -/
def HirFileId.parent_expansion (id : HirFileId) (db : AstDatabase) :
    Option ((HirFileId × HirFileId) × ExpansionInfo) :=
  match id.repr0 with
  | HirFileIdRepr.fileId _ => none
  | HirFileIdRepr.macroFile mf =>
    let loc := AstDatabase.lookup_intern_macro db mf.macro_call_id
    let def_file := loc.def_.ast_id.file_id
    let arg_file := loc.ast_id.file_id
    Option.map (fun ex => ((arg_file, def_file), ex))
      (AstDatabase.macro_expansion_info db mf)

/-- `MacroCallId::as_file(kind)`: wrap the handle and shape tag into a
`MacroFile` and convert it into a unified file identity. -/
def MacroCallId.as_file (c : MacroCallId) (kind : MacroFileKind) : HirFileId :=
  HirFileId.from_macro_file { macro_call_id := c, macro_file_kind := kind }

/-- `ExpansionInfo::find_range`: scan `arg_map` in order and return on the
first entry whose stored source range satisfies `src.is_subrange(&from)`
(i.e. the stored range lies within the query), pairing the arg-side file
identity with that entry's destination range; otherwise scan `def_map` the
same way with the def-side identity; otherwise `none`.  The `dbg!` calls in
the source are side-effect-only passthroughs and are dropped. -/
def ExpansionInfo.find_range (info : ExpansionInfo) (q : TextRange)
    (ids : HirFileId × HirFileId) : Option (HirFileId × TextRange) :=
  match List.find? (fun p => TextRange.is_subrange p.1 q) info.arg_map with
  | some p => some (ids.1, p.2)
  | none =>
    match List.find? (fun p => TextRange.is_subrange p.1 q) info.def_map with
    | some p => some (ids.2, p.2)
    | none => none

/-- The range-mapping algorithm as §4.5 of the spec words it, for comparison
with the source's `ExpansionInfo.find_range`: here the containment test is
"query range lies entirely within stored source range". -/
def ExpansionInfo.find_range_specWords (info : ExpansionInfo) (q : TextRange)
    (ids : HirFileId × HirFileId) : Option (HirFileId × TextRange) :=
  match List.find? (fun p => TextRange.is_subrange q p.1) info.arg_map with
  | some p => some (ids.1, p.2)
  | none =>
    match List.find? (fun p => TextRange.is_subrange q p.1) info.def_map with
    | some p => some (ids.2, p.2)
    | none => none

/-- Rust's `#[derive(PartialEq)]` body for `AstId`:
`(self.file_id, self.file_ast_id) == (other.file_id, other.file_ast_id)`. -/
def AstId.eq (a b : AstId) : Bool :=
  (a.file_id, a.file_ast_id) == (b.file_id, b.file_ast_id)

/-- Rust's `Hash` impl for `AstId` feeds exactly the pair
`(self.file_id, self.file_ast_id)` to the hasher; for any deterministic
hasher `h` the resulting hash is `h` of that pair. -/
def AstId.hashWith (h : HirFileId × FileAstId → Nat) (a : AstId) : Nat :=
  h (a.file_id, a.file_ast_id)

/-- `AstId::to_node`: materialize the tree (`parse_or_expand(...).unwrap()`),
look the index up in the file's node table, and map the pointer onto the live
root.  The two `unwrap`/panic branches are modelled as `none`. -/
def AstId.to_node (a : AstId) (db : AstDatabase) : Option SyntaxNode :=
  match AstDatabase.parse_or_expand db a.file_id with
  | none => none
  | some root =>
    match AstIdMap.get (AstDatabase.ast_id_map db a.file_id) a.file_ast_id with
    | none => none
    | some ptr => some (ptr root)

/-- `struct Source<T> { file_id, ast }`: the provenance wrapper. -/
structure Source (T : Type) where
  file_id : HirFileId
  ast : T

/-- `Source::map`: transform the payload, keep the file identity. -/
def Source.map {T U : Type} (s : Source T) (f : T → U) : Source U :=
  { file_id := s.file_id, ast := f s.ast }

/-- `Source::file_syntax`: `parse_or_expand(self.file_id).expect(...)`; the
panic branch is modelled as `none`. -/
def Source.file_syntax {T : Type} (s : Source T) (db : AstDatabase) :
    Option SyntaxNode :=
  AstDatabase.parse_or_expand db s.file_id

/-- A concrete macro-call location whose invocation site is `site` and whose
definition lives in real file 2 — used to instantiate the database below. -/
def exampleLoc (site : HirFileId) : MacroCallLoc :=
  { def_ := { krate := 0, ast_id := AstId.new (HirFileId.from_file 2) 0 },
    ast_id := AstId.new site 0 }

/-- Virtual file number `n` in the example nesting chain. -/
def mfEx (n : Nat) : MacroFile :=
  { macro_call_id := ⟨n⟩, macro_file_kind := MacroFileKind.Items }

/-- A concrete database: handle `n` (for `n ≥ 2`) was invoked inside virtual
file `n - 1`, and handle 1 was invoked inside real file 7, giving a nesting
chain of any depth; every file parses to node 42; every node table has one
pointer. -/
def exampleDb : AstDatabase :=
  { lookup_intern_macro := fun c =>
      exampleLoc (if c.intern_id ≤ 1 then HirFileId.from_file 7
                  else HirFileId.from_macro_file (mfEx (c.intern_id - 1))),
    macro_expansion_info := fun _ => some { arg_map := [], def_map := [] },
    parse_or_expand := fun _ => some 42,
    ast_id_map := fun _ => [fun root => root + 1] }

/-- First-match characterization of `List.find?`: if position `i` holds a
satisfying element and every earlier position does not satisfy the predicate,
`find?` returns the element at `i`. -/
theorem find?_first_of_getElem {α : Type} (p : α → Bool) :
    ∀ (l : List α) (i : Nat) (a : α),
      l[i]? = some a → p a = true →
      (∀ j, j < i → ∀ b, l[j]? = some b → p b = false) →
      List.find? p l = some a := by
  intro l
  induction l with
  | nil => intro i a h _ _; simp at h
  | cons x t ih =>
    intro i a h hpa hprev
    cases i with
    | zero =>
      simp only [List.getElem?_cons_zero, Option.some.injEq] at h
      subst h
      exact List.find?_cons_of_pos t hpa
    | succ n =>
      have hx : p x = false := hprev 0 (Nat.succ_pos n) x (by simp)
      rw [List.find?_cons_of_neg t (by simp [hx])]
      exact ih n a (by simpa using h) hpa
        (fun j hj b hb => hprev (j + 1) (by omega) b (by simpa using hb))

/-- C1 counterexample: with `arg_map = [([0,10), [100,110))]` and query
`[2,5)`, the stored source range fully contains the query range, so the claim
mandates `some (arg_file, [100,110))`; the code's test `src.is_subrange(&from)`
checks the reverse containment and `find_range` returns `none`. -/
theorem c1_counterexample :
    TextRange.is_subrange ⟨2, 5⟩ ⟨0, 10⟩ = true ∧
    ExpansionInfo.find_range ⟨[(⟨0, 10⟩, ⟨100, 110⟩)], []⟩ ⟨2, 5⟩
      (HirFileId.from_file 1, HirFileId.from_file 2) = none := by
  decide

/-- C1 (amended): `find_range` scans the argument-side list in insertion
order and returns on the first entry whose stored source range is fully
contained in the query range, pairing the arg-side file identity with that
entry's destination range; when several argument-side entries are contained
in the query range, the entry listed first is returned, independent of range
size. -/
theorem c1_find_range_first_match_arg_side
    (info : ExpansionInfo) (q : TextRange) (ids : HirFileId × HirFileId)
    (i : Nat) (s d : TextRange)
    (h : info.arg_map[i]? = some (s, d))
    (hs : TextRange.is_subrange s q = true)
    (hprev : ∀ j, j < i → ∀ s' d', info.arg_map[j]? = some (s', d') →
        TextRange.is_subrange s' q = false) :
    ExpansionInfo.find_range info q ids = some (ids.1, d) := by
  have hfind : List.find? (fun p => TextRange.is_subrange p.1 q) info.arg_map
      = some (s, d) :=
    find?_first_of_getElem _ info.arg_map i (s, d) h hs
      (fun j hj b hb => hprev j hj b.1 b.2 hb)
  simp [ExpansionInfo.find_range, hfind]

/-- C1 witness: two overlapping arg-map entries both contained in the query
`[0,10)`; the first listed, `([2,4), [100,110))`, wins even though the second
is larger. -/
theorem c1_witness :
    ExpansionInfo.find_range ⟨[(⟨2, 4⟩, ⟨100, 110⟩), (⟨1, 5⟩, ⟨300, 310⟩)], []⟩
      ⟨0, 10⟩ (HirFileId.from_file 1, HirFileId.from_file 2)
      = some (HirFileId.from_file 1, ⟨100, 110⟩) :=
  c1_find_range_first_match_arg_side
    ⟨[(⟨2, 4⟩, ⟨100, 110⟩), (⟨1, 5⟩, ⟨300, 310⟩)], []⟩ ⟨0, 10⟩
    (HirFileId.from_file 1, HirFileId.from_file 2) 0 ⟨2, 4⟩ ⟨100, 110⟩ rfl
    (by decide) (fun j hj _ _ _ => absurd hj (Nat.not_lt_zero j))

/-- C2 counterexample: empty arg-map, `def_map = [([20,30), [200,210))]`,
query `[22,25)`: the stored def-side source range contains the query, so per
the claim the def-side scan should yield `some (def_file, [200,210))`; the
code returns `none` because its containment test is reversed. -/
theorem c2_counterexample :
    TextRange.is_subrange ⟨22, 25⟩ ⟨20, 30⟩ = true ∧
    ExpansionInfo.find_range ⟨[], [(⟨20, 30⟩, ⟨200, 210⟩)]⟩ ⟨22, 25⟩
      (HirFileId.from_file 1, HirFileId.from_file 2) = none := by
  decide

/-- C2 (amended): if no argument-side entry matches (no arg entry's stored
source range is contained in the query range), the definition-side list is
scanned the same way — in order, first entry whose stored source range is
contained in the query wins — returning the def-side file identity paired
with that entry's destination range; if neither list yields a match,
`find_range` returns `none`, a normal outcome rather than an error. -/
theorem c2_find_range_def_side_fallback
    (info : ExpansionInfo) (q : TextRange) (ids : HirFileId × HirFileId)
    (hargs : ∀ p ∈ info.arg_map, TextRange.is_subrange p.1 q = false) :
    ((∀ p ∈ info.def_map, TextRange.is_subrange p.1 q = false) →
        ExpansionInfo.find_range info q ids = none) ∧
    (∀ (i : Nat) (s d : TextRange), info.def_map[i]? = some (s, d) →
        TextRange.is_subrange s q = true →
        (∀ j, j < i → ∀ s' d', info.def_map[j]? = some (s', d') →
            TextRange.is_subrange s' q = false) →
        ExpansionInfo.find_range info q ids = some (ids.2, d)) := by
  have hargnone :
      List.find? (fun p => TextRange.is_subrange p.1 q) info.arg_map = none := by
    rw [List.find?_eq_none]
    intro x hx
    simp [hargs x hx]
  constructor
  · intro hdefs
    have hdefnone :
        List.find? (fun p => TextRange.is_subrange p.1 q) info.def_map = none := by
      rw [List.find?_eq_none]
      intro x hx
      simp [hdefs x hx]
    simp [ExpansionInfo.find_range, hargnone, hdefnone]
  · intro i s d h hs hprev
    have hfind : List.find? (fun p => TextRange.is_subrange p.1 q) info.def_map
        = some (s, d) :=
      find?_first_of_getElem _ info.def_map i (s, d) h hs
        (fun j hj b hb => hprev j hj b.1 b.2 hb)
    simp [ExpansionInfo.find_range, hargnone, hfind]

/-- C2 witness: the arg entry `([0,10), ...)` is not contained in query
`[22,25)`, the def entry `([23,24), [200,210))` is, so the def-side identity
is returned with that destination range. -/
theorem c2_witness :
    ExpansionInfo.find_range
      ⟨[(⟨0, 10⟩, ⟨100, 110⟩)], [(⟨23, 24⟩, ⟨200, 210⟩)]⟩ ⟨22, 25⟩
      (HirFileId.from_file 1, HirFileId.from_file 2)
      = some (HirFileId.from_file 2, ⟨200, 210⟩) :=
  (c2_find_range_def_side_fallback
    ⟨[(⟨0, 10⟩, ⟨100, 110⟩)], [(⟨23, 24⟩, ⟨200, 210⟩)]⟩ ⟨22, 25⟩
    (HirFileId.from_file 1, HirFileId.from_file 2) (by decide)).2
    0 ⟨23, 24⟩ ⟨200, 210⟩ rfl (by decide)
    (fun j hj _ _ _ => absurd hj (Nat.not_lt_zero j))

/-- C3: whenever `find_range` returns a match, the returned range is exactly
the matched entry's stored destination range, verbatim — it occurs paired
with some matching source range in `arg_map` (with the arg-side identity) or
in `def_map` (with the def-side identity); no offset adjustment is applied. -/
theorem c3_returned_range_is_stored_destination
    (info : ExpansionInfo) (q : TextRange) (ids : HirFileId × HirFileId)
    (f : HirFileId) (r : TextRange)
    (h : ExpansionInfo.find_range info q ids = some (f, r)) :
    (∃ s, (s, r) ∈ info.arg_map ∧ TextRange.is_subrange s q = true ∧ f = ids.1) ∨
    (∃ s, (s, r) ∈ info.def_map ∧ TextRange.is_subrange s q = true ∧ f = ids.2) := by
  unfold ExpansionInfo.find_range at h
  cases harg : List.find? (fun p => TextRange.is_subrange p.1 q) info.arg_map with
  | some p =>
    rw [harg] at h
    have h1 : ids.1 = f ∧ p.2 = r := by simpa using h
    have hmem : p ∈ info.arg_map := List.mem_of_find?_eq_some harg
    have hp : TextRange.is_subrange p.1 q = true := by
      simpa using List.find?_some harg
    left
    refine ⟨p.1, ?_, hp, h1.1.symm⟩
    rw [← h1.2]
    exact hmem
  | none =>
    rw [harg] at h
    cases hdef : List.find? (fun p => TextRange.is_subrange p.1 q) info.def_map with
    | some p =>
      rw [hdef] at h
      have h1 : ids.2 = f ∧ p.2 = r := by simpa using h
      have hmem : p ∈ info.def_map := List.mem_of_find?_eq_some hdef
      have hp : TextRange.is_subrange p.1 q = true := by
        simpa using List.find?_some hdef
      right
      refine ⟨p.1, ?_, hp, h1.1.symm⟩
      rw [← h1.2]
      exact hmem
    | none =>
      rw [hdef] at h
      simp at h

/-- C3 witness: on a concrete match the returned range `[100,110)` is the
stored destination of the arg-map entry `([2,4), [100,110))`, verbatim. -/
theorem c3_witness :
    (∃ s, (s, (⟨100, 110⟩ : TextRange)) ∈
        [((⟨2, 4⟩ : TextRange), (⟨100, 110⟩ : TextRange))] ∧
        TextRange.is_subrange s ⟨0, 10⟩ = true ∧
        HirFileId.from_file 1 = HirFileId.from_file 1) ∨
    (∃ s, (s, (⟨100, 110⟩ : TextRange)) ∈ ([] : List (TextRange × TextRange)) ∧
        TextRange.is_subrange s ⟨0, 10⟩ = true ∧
        HirFileId.from_file 1 = HirFileId.from_file 2) :=
  c3_returned_range_is_stored_destination ⟨[(⟨2, 4⟩, ⟨100, 110⟩)], []⟩ ⟨0, 10⟩
    (HirFileId.from_file 1, HirFileId.from_file 2) (HirFileId.from_file 1)
    ⟨100, 110⟩ (by decide)

/-- C4: for every real file identity `f` and every database, `original_file`
on the unified identity wrapping `f` returns `f` itself (with any positive
recursion fuel). -/
theorem c4_original_file_real_identity
    (db : AstDatabase) (f : FileId) (fuel : Nat) :
    HirFileId.original_file (HirFileId.from_file f) db (fuel + 1) = some f :=
  rfl

/-- C5: for a virtual identity whose call-site chain reaches the real file
`f` in `k` steps (the §3 acyclicity invariant), `original_file` terminates
and returns `f` for every fuel exceeding `k` — each step resolves the handle
and recurses on the call-site file identity, for any nesting depth. -/
theorem c5_original_file_terminates_at_root
    (db : AstDatabase) (id : HirFileId) (f : FileId) (k fuel : Nat)
    (h : RootsAt db id f k) (hfuel : k < fuel) :
    HirFileId.original_file id db fuel = some f := by
  induction h generalizing fuel with
  | real g =>
    obtain ⟨fuel', rfl⟩ : ∃ n, fuel = n + 1 := ⟨fuel - 1, by omega⟩
    rfl
  | step mf g k' hchain ih =>
    obtain ⟨fuel', rfl⟩ : ∃ n, fuel = n + 1 := ⟨fuel - 1, by omega⟩
    have hstep :
        HirFileId.original_file (HirFileId.from_macro_file mf) db (fuel' + 1)
          = HirFileId.original_file (call_site db mf) db fuel' := rfl
    rw [hstep]
    exact ih fuel' (by omega)

/-- C5 witness: a three-level nesting chain (virtual 3 → virtual 2 →
virtual 1 → real file 7) resolves to real file 7. -/
theorem c5_witness :
    HirFileId.original_file (HirFileId.from_macro_file (mfEx 3)) exampleDb 4
      = some 7 :=
  c5_original_file_terminates_at_root exampleDb
    (HirFileId.from_macro_file (mfEx 3)) 7 3 4
    (RootsAt.step (mfEx 3) 7 2
      (RootsAt.step (mfEx 2) 7 1
        (RootsAt.step (mfEx 1) 7 0 (RootsAt.real 7))))
    (by omega)

/-- C6: `parent_expansion` yields nothing for real identities; for a virtual
identity it yields a result exactly when the database's expansion info is
present, and that result pairs (call-site file identity, definition-site file
identity) with the one-level expansion info. -/
theorem c6_parent_expansion_one_level
    (db : AstDatabase) (f : FileId) (mf : MacroFile) :
    HirFileId.parent_expansion (HirFileId.from_file f) db = none ∧
    ((HirFileId.parent_expansion (HirFileId.from_macro_file mf) db).isSome ↔
        (AstDatabase.macro_expansion_info db mf).isSome) ∧
    (∀ ex, AstDatabase.macro_expansion_info db mf = some ex →
        HirFileId.parent_expansion (HirFileId.from_macro_file mf) db =
          some (((AstDatabase.lookup_intern_macro db mf.macro_call_id).ast_id.file_id,
                 (AstDatabase.lookup_intern_macro db mf.macro_call_id).def_.ast_id.file_id),
                ex)) := by
  refine ⟨rfl, ?_, ?_⟩
  · cases hx : AstDatabase.macro_expansion_info db mf <;>
      simp [HirFileId.parent_expansion, HirFileId.from_macro_file, hx]
  · intro ex hex
    simp [HirFileId.parent_expansion, HirFileId.from_macro_file, hex]

/-- C6 witness: on the concrete database, the one-level unwrap of virtual
file 1 yields call-site file 7, definition-site file 2 and the cached
(empty) expansion info. -/
theorem c6_witness :
    HirFileId.parent_expansion (HirFileId.from_macro_file (mfEx 1)) exampleDb =
      some ((HirFileId.from_file 7, HirFileId.from_file 2),
            { arg_map := [], def_map := [] }) :=
  (c6_parent_expansion_one_level exampleDb 0 (mfEx 1)).2.2
    { arg_map := [], def_map := [] } rfl

/-- C7: `as_file` over the same handle with the same shape tag yields equal
identities, with different tags unequal identities (the equality holds iff
handle and tag agree), and an identity built from a real file is never equal
to one built from a macro call. -/
theorem c7_as_file_identity
    (c c' : MacroCallId) (k k' : MacroFileKind) (f : FileId) :
    (MacroCallId.as_file c k = MacroCallId.as_file c' k' ↔ (c = c' ∧ k = k')) ∧
    HirFileId.from_file f ≠ MacroCallId.as_file c k := by
  constructor
  · simp [MacroCallId.as_file, HirFileId.from_macro_file, HirFileId.mk.injEq,
      MacroFile.mk.injEq]
  · simp [MacroCallId.as_file, HirFileId.from_macro_file, HirFileId.from_file,
      HirFileId.mk.injEq]

/-- C7 witness: a concrete instantiation — same handle, tags `Items` vs
`Expr` — of the equality characterization and the real/virtual disjointness. -/
theorem c7_witness :
    (MacroCallId.as_file ⟨0⟩ MacroFileKind.Items
        = MacroCallId.as_file ⟨0⟩ MacroFileKind.Expr ↔
      ((⟨0⟩ : MacroCallId) = ⟨0⟩ ∧ MacroFileKind.Items = MacroFileKind.Expr)) ∧
    HirFileId.from_file 0 ≠ MacroCallId.as_file ⟨0⟩ MacroFileKind.Items :=
  c7_as_file_identity ⟨0⟩ ⟨0⟩ MacroFileKind.Items MacroFileKind.Expr 0

/-- C8: `AstId` equality is purely structural over the (file identity, index)
pair — independently constructed references with equal pairs are equal, any
deterministic hash of the pair agrees on equal references, and references
with different file identities are unequal even with equal indices. -/
theorem c8_ast_id_structural_eq_and_hash
    (fid fid' : HirFileId) (i i' : FileAstId)
    (h : HirFileId × FileAstId → Nat) :
    (AstId.eq (AstId.new fid i) (AstId.new fid' i') = true ↔
        (fid = fid' ∧ i = i')) ∧
    (AstId.eq (AstId.new fid i) (AstId.new fid' i') = true →
        AstId.hashWith h (AstId.new fid i) = AstId.hashWith h (AstId.new fid' i')) ∧
    (fid ≠ fid' → AstId.eq (AstId.new fid i) (AstId.new fid' i) = false) := by
  have key : ∀ j j' : FileAstId,
      AstId.eq (AstId.new fid j) (AstId.new fid' j') = true ↔
        (fid = fid' ∧ j = j') := by
    intro j j'
    simp [AstId.eq, AstId.new, Prod.mk.injEq]
  refine ⟨key i i', ?_, ?_⟩
  · intro he
    obtain ⟨h1, h2⟩ := (key i i').mp he
    simp [AstId.hashWith, AstId.new, h1, h2]
  · intro hne
    rw [← Bool.not_eq_true, key i i]
    exact fun hc => hne hc.1

/-- C8 witness: concrete references over file identities 1 and 2 with equal
index 5, with the second projection as hash function. -/
theorem c8_witness :
    (AstId.eq (AstId.new (HirFileId.from_file 1) 5)
        (AstId.new (HirFileId.from_file 2) 5) = true ↔
      (HirFileId.from_file 1 = HirFileId.from_file 2 ∧ (5 : FileAstId) = 5)) ∧
    (AstId.eq (AstId.new (HirFileId.from_file 1) 5)
        (AstId.new (HirFileId.from_file 2) 5) = true →
      AstId.hashWith Prod.snd (AstId.new (HirFileId.from_file 1) 5)
        = AstId.hashWith Prod.snd (AstId.new (HirFileId.from_file 2) 5)) ∧
    (HirFileId.from_file 1 ≠ HirFileId.from_file 2 →
      AstId.eq (AstId.new (HirFileId.from_file 1) 5)
        (AstId.new (HirFileId.from_file 2) 5) = false) :=
  c8_ast_id_structural_eq_and_hash (HirFileId.from_file 1) (HirFileId.from_file 2)
    5 5 Prod.snd

/-- C9: `Source.map` keeps the carried file identity unchanged and replaces
the payload with the transform applied to it, and two maps in sequence equal
one map with the composed transform. -/
theorem c9_source_map_functor {T U V : Type}
    (s : Source T) (f : T → U) (g : U → V) :
    ((Source.map s f).file_id = s.file_id ∧ (Source.map s f).ast = f s.ast) ∧
    Source.map (Source.map s f) g = Source.map s (fun t => g (f t)) :=
  ⟨⟨rfl, rfl⟩, rfl⟩

/-- C10: when `parse_or_expand` succeeds for the carried file identity and
the index exists in the file's node table, `to_node` returns the node at the
stored index in the materialized tree and `file_syntax` returns the
materialized tree — neither reaches its failure (panic) branch, which the
embedding marks as `none`. -/
theorem c10_to_node_file_syntax_success {T : Type}
    (db : AstDatabase) (a : AstId) (s : Source T)
    (root tree : SyntaxNode) (ptr : AstPtr)
    (h1 : AstDatabase.parse_or_expand db a.file_id = some root)
    (h2 : AstIdMap.get (AstDatabase.ast_id_map db a.file_id) a.file_ast_id
        = some ptr)
    (h3 : AstDatabase.parse_or_expand db s.file_id = some tree) :
    AstId.to_node a db = some (ptr root) ∧ Source.file_syntax s db = some tree := by
  constructor
  · unfold AstId.to_node
    rw [h1, h2]
  · unfold Source.file_syntax
    exact h3

/-- C10 witness: on the concrete database every file parses to node 42 and
index 0 maps the root to its successor, so `to_node` yields 43 and
`file_syntax` yields 42. -/
theorem c10_witness :
    AstId.to_node (AstId.new (HirFileId.from_file 0) 0) exampleDb = some 43 ∧
    Source.file_syntax
      { file_id := HirFileId.from_file 0, ast := (0 : Nat) } exampleDb
      = some 42 :=
  c10_to_node_file_syntax_success exampleDb (AstId.new (HirFileId.from_file 0) 0)
    { file_id := HirFileId.from_file 0, ast := (0 : Nat) } 42 42
    (fun root => root + 1) rfl rfl rfl

end RaHirExpand
